import Mathlib

/-!
Shallow embedding of the `strcvt.h` and `utf8_args.h` headers
(repository `coding-utilities`, directory `src/cpp`).

Strings are modelled as follows:

* a C-style `const char*` argument is `Option (List Nat)`: `none` is the
  null pointer, `some content` is a pointer to the bytes `content`
  followed by a terminating NUL (the bytes of `content` are the bytes
  strictly before the terminator);
* a `std::string` is a `List Nat` of bytes (its size is explicit, so it
  may contain embedded NUL bytes);
* a `std::wstring` is a `List Nat` of UTF-16 code units.

The Windows conversion primitives `MultiByteToWideChar` and
`WideCharToMultiByte` are modelled by an abstract structure `OS` holding
one conversion function per direction, indexed by the code page.  The
two-call measure-then-fill pattern of the source collapses to: the
"measure" call returns the length of the conversion result and the
"fill" call returns the result itself.  For the fixed code page
`CP_UTF8` a concrete reference codec (`utf8Decode`/`utf8Encode` composed
with `utf16Encode`/`utf16Decode`) states what a faithful OS does
(`OS.utf8Faithful`).
-/

/-- Code page constant `CP_ACP` (the system default ANSI code page). -/
def CP_ACP : Nat := 0

/-- Code page constant `CP_UTF8`. -/
def CP_UTF8 : Nat := 65001

/-- A Unicode scalar value: below `0x110000` and not a UTF-16 surrogate. -/
def ValidScalar (c : Nat) : Prop := c < 0x110000 ∧ (c < 0xD800 ∨ 0xE000 ≤ c)

instance (c : Nat) : Decidable (ValidScalar c) := by
  unfold ValidScalar; infer_instance

/-- Shortest-form UTF-8 encoding of one scalar value (1–4 bytes). -/
def utf8EncodeChar (c : Nat) : List Nat :=
  if c < 0x80 then [c]
  else if c < 0x800 then [0xC0 + c / 0x40, 0x80 + c % 0x40]
  else if c < 0x10000 then
    [0xE0 + c / 0x1000, 0x80 + (c / 0x40) % 0x40, 0x80 + c % 0x40]
  else
    [0xF0 + c / 0x40000, 0x80 + (c / 0x1000) % 0x40,
     0x80 + (c / 0x40) % 0x40, 0x80 + c % 0x40]

/-- UTF-8 encoding of a list of scalar values. -/
def utf8Encode (cs : List Nat) : List Nat := (cs.map utf8EncodeChar).flatten

/-- Streaming UTF-8 decoder used to model the OS conversion for `CP_UTF8`
(flags 0): total, one byte per step.  `need` is the number of continuation
bytes still expected and `acc` the partial scalar value.  An ill-formed
byte produces the replacement character `0xFFFD`; on well-formed input
the decoder inverts `utf8Encode`. -/
def utf8Run : Nat → Nat → List Nat → List Nat
  | need, _, [] => if need = 0 then [] else [0xFFFD]
  | need, acc, b :: rest =>
    if 0 < need then
      if 0x80 ≤ b ∧ b < 0xC0 then
        if need = 1 then (acc * 0x40 + (b - 0x80)) :: utf8Run 0 0 rest
        else utf8Run (need - 1) (acc * 0x40 + (b - 0x80)) rest
      else 0xFFFD :: utf8Run 0 0 rest
    else if b < 0x80 then b :: utf8Run 0 0 rest
    else if b < 0xC0 then 0xFFFD :: utf8Run 0 0 rest
    else if b < 0xE0 then utf8Run 1 (b - 0xC0) rest
    else if b < 0xF0 then utf8Run 2 (b - 0xE0) rest
    else if b < 0xF8 then utf8Run 3 (b - 0xF0) rest
    else 0xFFFD :: utf8Run 0 0 rest

/-- Model of UTF-8 decoding as the OS conversion performs it. -/
def utf8Decode (bs : List Nat) : List Nat := utf8Run 0 0 bs

/-- UTF-16 encoding of one scalar value (one unit, or a surrogate pair). -/
def utf16EncodeChar (c : Nat) : List Nat :=
  if c < 0x10000 then [c]
  else [0xD800 + (c - 0x10000) / 0x400, 0xDC00 + (c - 0x10000) % 0x400]

/-- UTF-16 encoding of a list of scalar values. -/
def utf16Encode (cs : List Nat) : List Nat := (cs.map utf16EncodeChar).flatten

/-- Streaming UTF-16 decoder: total, one unit per step.  `pend` is a
pending high surrogate.  An unpaired surrogate produces `0xFFFD`; on
well-formed input the decoder inverts `utf16Encode`. -/
def utf16Run : Option Nat → List Nat → List Nat
  | none, [] => []
  | some _, [] => [0xFFFD]
  | none, u :: rest =>
    if 0xD800 ≤ u ∧ u < 0xDC00 then utf16Run (some u) rest
    else if 0xDC00 ≤ u ∧ u < 0xE000 then 0xFFFD :: utf16Run none rest
    else u :: utf16Run none rest
  | some hi, u :: rest =>
    if 0xDC00 ≤ u ∧ u < 0xE000 then
      (0x10000 + (hi - 0xD800) * 0x400 + (u - 0xDC00)) :: utf16Run none rest
    else 0xFFFD :: utf16Run none rest

/-- Model of UTF-16 decoding as the OS conversion performs it. -/
def utf16Decode (us : List Nat) : List Nat := utf16Run none us

/-- Abstract model of the OS conversion primitives.  `mb cp bytes` is what
`MultiByteToWideChar(cp, 0, …)` produces from `bytes` (the "measure" call
of the source returns its length), and `wc cp units` is what
`WideCharToMultiByte(cp, 0, …)` produces from the UTF-16 units. -/
structure OS where
  mb : Nat → List Nat → List Nat
  wc : Nat → List Nat → List Nat

/-- An OS whose `CP_UTF8` conversions agree with the reference codec. -/
def OS.utf8Faithful (os : OS) : Prop :=
  (∀ bs, os.mb CP_UTF8 bs = utf16Encode (utf8Decode bs)) ∧
  (∀ us, os.wc CP_UTF8 us = utf8Encode (utf16Decode us))

/-- The byte range `MultiByteToWideChar` reads from a C string pointer
given the `length` argument: `-1` means up to and including the
terminator, a non-negative `length` means exactly the first `length`
bytes of the buffer. -/
def cstrSrc (content : List Nat) (length : Int) : List Nat :=
  if length = -1 then content ++ [0] else content.take length.toNat

/-- Embedding of `strcvt::CStr2WString` (strcvt.h lines 17–27). -/
def CStr2WString (os : OS) (str : Option (List Nat)) (length : Int)
    (cp : Nat) : List Nat :=
  match str with
  | none => []
  | some content =>
    let src := cstrSrc content length
    let wlen := (os.mb cp src).length
    if wlen = 0 then [] else os.mb cp src

/-- Embedding of `strcvt::String2WString` (strcvt.h lines 36–41). -/
def String2WString (os : OS) (str : List Nat) (cp : Nat) : List Nat :=
  if str = [] then []
  else CStr2WString os (some str) (Int.ofNat str.length) cp

/-- Embedding of `strcvt::WString2String` (strcvt.h lines 50–63). -/
def WString2String (os : OS) (wstr : List Nat) (cp : Nat) : List Nat :=
  if wstr = [] then []
  else
    let len := (os.wc cp wstr).length
    if len = 0 then [] else os.wc cp wstr

/-- Embedding of `strcvt::U8CStr2WString` (strcvt.h lines 74–78). -/
def U8CStr2WString (os : OS) (str : Option (List Nat)) (length : Int) :
    List Nat :=
  match str with
  | none => []
  | some content =>
    if length = 0 then [] else CStr2WString os (some content) length CP_UTF8

/-- Embedding of `strcvt::U8String2WString` (strcvt.h lines 80–84). -/
def U8String2WString (os : OS) (str : List Nat) : List Nat :=
  if str = [] then [] else String2WString os str CP_UTF8

/-- Embedding of `strcvt::WString2U8String` (strcvt.h lines 92–96). -/
def WString2U8String (os : OS) (wstr : List Nat) : List Nat :=
  if wstr = [] then [] else WString2String os wstr CP_UTF8

/-- Embedding of `strcvt::U8CStr2String` (strcvt.h lines 105–112). -/
def U8CStr2String (os : OS) (str : Option (List Nat)) (length : Int) :
    List Nat :=
  match str with
  | none => []
  | some content =>
    if length = 0 then []
    else WString2String os (U8CStr2WString os (some content) length) CP_ACP

/-- Embedding of `strcvt::U8String2String` (strcvt.h lines 120–124). -/
def U8String2String (os : OS) (str : List Nat) : List Nat :=
  if str = [] then []
  else U8CStr2String os (some str) (Int.ofNat str.length)

/-- Embedding of `strcvt::String2U8String` (strcvt.h lines 132–139). -/
def String2U8String (os : OS) (str : List Nat) : List Nat :=
  if str = [] then []
  else WString2U8String os (String2WString os str CP_ACP)

/-- The scanning loop of `strcvt::U8StrLength` (strcvt.h lines 153–167),
with the pointer advance `str += n` expanded into unit steps: `skip` is
the number of bytes the pointer still has to move before the next
dereference, `count` the running code-point count, and the list the
bytes of the allocated buffer from the current pointer position on (the
allocated C string is `content ++ [0]`).  `some n` models the loop
returning `n`; `none` models a dereference outside the allocated buffer
(the advance by the declared sequence width skipped past the
terminator). -/
def u8ScanS : Nat → Nat → List Nat → Option Nat
  | _, _, [] => none
  | skip, count, b :: rest =>
    if 0 < skip then u8ScanS (skip - 1) count rest
    else if b = 0 then some count
    else if b < 0x80 then u8ScanS 0 (count + 1) rest
    else if b >>> 5 = 0x6 then u8ScanS 1 (count + 1) rest
    else if b >>> 4 = 0xE then u8ScanS 2 (count + 1) rest
    else if b >>> 3 = 0x1E then u8ScanS 3 (count + 1) rest
    else some count

/-- Embedding of `strcvt::U8StrLength(const char*)` (strcvt.h lines
149–169): `none` input is the null pointer. -/
def U8StrLength (str : Option (List Nat)) : Option Nat :=
  match str with
  | none => some 0
  | some content => u8ScanS 0 0 (content ++ [0])

/-- Embedding of the `strcvt::U8StrLength(const std::string&)` overload
(strcvt.h lines 177–181). -/
def U8StrLengthStr (str : List Nat) : Option Nat :=
  if str = [] then some 0 else u8ScanS 0 0 (str ++ [0])

/-- Embedding of `utf8_args::WideToUTF8` (utf8_args.h lines 14–21): the
`-1` length makes the OS convert the units and the terminator; the
result drops the trailing converted terminator. -/
def WideToUTF8 (os : OS) (wstr : Option (List Nat)) : List Nat :=
  match wstr with
  | none => []
  | some ws =>
    let size := (os.wc CP_UTF8 (ws ++ [0])).length
    if size ≤ 0 then [] else (os.wc CP_UTF8 (ws ++ [0])).dropLast

/-- The diagnostic line `GetUTF8CommandLineArgs` prints on re-parse
failure (utf8_args.h line 30). -/
def utf8ArgsErrMsg : String := "[utf8_args] Failed to parse command line."

/-- Embedding of the Windows `utf8_args::GetUTF8CommandLineArgs`
(utf8_args.h lines 24–41).  `argvW` is the result of
`CommandLineToArgvW` (`none` = it returned no array); the second
component of the result is the list of lines written to `stderr`. -/
def GetUTF8CommandLineArgs (os : OS) (argvW : Option (List (List Nat))) :
    List (List Nat) × List String :=
  match argvW with
  | none => ([], [utf8ArgsErrMsg])
  | some args => (args.map (fun a => WideToUTF8 os (some a)), [])

/-- Embedding of the non-Windows `utf8_args::GetUTF8CommandLineArgs`
(utf8_args.h lines 48–50): the vector built from the pointer range
`[argv, argv + argc)`. -/
def GetUTF8CommandLineArgsPosix (argc : Nat) (argv : List (List Nat)) :
    List (List Nat) :=
  argv.take argc

/-- An OS model used to instantiate theorems: every code page behaves as
UTF-8 under the reference codec. -/
def osStd : OS :=
  ⟨fun _ bs => utf16Encode (utf8Decode bs), fun _ us => utf8Encode (utf16Decode us)⟩

/-- A degenerate OS model mapping each byte to one unit unchanged, used
to instantiate theorems about an arbitrary code page. -/
def osId : OS := ⟨fun _ bs => bs, fun _ us => us⟩

/-- An OS conversion that decodes a NUL-terminated buffer as the
decoding of the bytes before the terminator followed by one null unit
(what the spec's "decode up to and including a terminator" describes). -/
def MbRespectsTerminator (os : OS) (cp : Nat) : Prop :=
  ∀ s, 0 ∉ s → os.mb cp (s ++ [0]) = os.mb cp s ++ [0]

example : utf8Encode [0x68, 0xE9, 0x6C, 0x6C, 0x6F] =
    [0x68, 0xC3, 0xA9, 0x6C, 0x6C, 0x6F] := by decide

example : U8StrLength (some (utf8Encode [0x68, 0xE9, 0x6C, 0x6C, 0x6F])) = some 5 := by
  decide

example : U8StrLength (some [0xFF, 0xFE, 0x61, 0x62, 0x63]) = some 0 := by decide

example : U8StrLength (some [0x68, 0xC3]) = none := by decide

example : utf8Decode (utf8Encode [0x10000, 0x7FF, 0xFFFF, 0x41]) =
    [0x10000, 0x7FF, 0xFFFF, 0x41] := by decide

example : utf16Decode (utf16Encode [0x10000, 0x10FFFF, 0x41]) =
    [0x10000, 0x10FFFF, 0x41] := by decide

lemma utf8Encode_cons (c : Nat) (cs : List Nat) :
    utf8Encode (c :: cs) = utf8EncodeChar c ++ utf8Encode cs := by
  simp [utf8Encode]

lemma utf16Encode_cons (c : Nat) (cs : List Nat) :
    utf16Encode (c :: cs) = utf16EncodeChar c ++ utf16Encode cs := by
  simp [utf16Encode]

lemma utf8Encode_ne_nil (c : Nat) (cs : List Nat) : utf8Encode (c :: cs) ≠ [] := by
  rw [utf8Encode_cons]
  unfold utf8EncodeChar
  split_ifs <;> simp

lemma utf16Encode_ne_nil (c : Nat) (cs : List Nat) : utf16Encode (c :: cs) ≠ [] := by
  rw [utf16Encode_cons]
  unfold utf16EncodeChar
  split_ifs <;> simp

lemma utf8Run_ascii {b : Nat} (rest : List Nat) (h : b < 0x80) :
    utf8Run 0 0 (b :: rest) = b :: utf8Run 0 0 rest := by
  rw [utf8Run.eq_def]
  simp only [if_neg (lt_irrefl 0), if_pos h]

lemma utf8Run_two {b b1 : Nat} (rest : List Nat) (hb : 0xC0 ≤ b)
    (hb' : b < 0xE0) (h1 : 0x80 ≤ b1) (h1' : b1 < 0xC0) :
    utf8Run 0 0 (b :: b1 :: rest) =
      ((b - 0xC0) * 0x40 + (b1 - 0x80)) :: utf8Run 0 0 rest := by
  rw [utf8Run.eq_def]
  simp only [if_neg (lt_irrefl 0), if_neg (show ¬ b < 0x80 by omega),
    if_neg (show ¬ b < 0xC0 by omega), if_pos hb']
  rw [utf8Run.eq_def]
  simp only [if_pos Nat.zero_lt_one, if_pos (And.intro h1 h1'), if_true]

lemma utf8Run_three {b b1 b2 : Nat} (rest : List Nat) (hb : 0xE0 ≤ b)
    (hb' : b < 0xF0) (h1 : 0x80 ≤ b1) (h1' : b1 < 0xC0)
    (h2 : 0x80 ≤ b2) (h2' : b2 < 0xC0) :
    utf8Run 0 0 (b :: b1 :: b2 :: rest) =
      ((b - 0xE0) * 0x1000 + (b1 - 0x80) * 0x40 + (b2 - 0x80)) ::
        utf8Run 0 0 rest := by
  rw [utf8Run.eq_def]
  simp only [if_neg (lt_irrefl 0), if_neg (show ¬ b < 0x80 by omega),
    if_neg (show ¬ b < 0xC0 by omega), if_neg (show ¬ b < 0xE0 by omega),
    if_pos hb']
  rw [utf8Run.eq_def]
  simp only [if_pos (show (0:Nat) < 2 by omega), if_pos (And.intro h1 h1'),
    if_neg (show ¬ (2 : Nat) = 1 by omega)]
  rw [utf8Run.eq_def]
  simp only [if_pos (show (0:Nat) < 2 - 1 by omega),
    if_pos (And.intro h2 h2'), if_true]
  have hval : ((b - 0xE0) * 0x40 + (b1 - 0x80)) * 0x40 + (b2 - 0x80) =
      (b - 0xE0) * 0x1000 + (b1 - 0x80) * 0x40 + (b2 - 0x80) := by omega
  rw [hval]

lemma utf8Run_four {b b1 b2 b3 : Nat} (rest : List Nat) (hb : 0xF0 ≤ b)
    (hb' : b < 0xF8) (h1 : 0x80 ≤ b1) (h1' : b1 < 0xC0)
    (h2 : 0x80 ≤ b2) (h2' : b2 < 0xC0) (h3 : 0x80 ≤ b3) (h3' : b3 < 0xC0) :
    utf8Run 0 0 (b :: b1 :: b2 :: b3 :: rest) =
      ((b - 0xF0) * 0x40000 + (b1 - 0x80) * 0x1000 + (b2 - 0x80) * 0x40 +
        (b3 - 0x80)) :: utf8Run 0 0 rest := by
  rw [utf8Run.eq_def]
  simp only [if_neg (lt_irrefl 0), if_neg (show ¬ b < 0x80 by omega),
    if_neg (show ¬ b < 0xC0 by omega), if_neg (show ¬ b < 0xE0 by omega),
    if_neg (show ¬ b < 0xF0 by omega), if_pos hb']
  rw [utf8Run.eq_def]
  simp only [if_pos (show (0:Nat) < 3 by omega), if_pos (And.intro h1 h1'),
    if_neg (show ¬ (3 : Nat) = 1 by omega)]
  rw [utf8Run.eq_def]
  simp only [if_pos (show (0:Nat) < 3 - 1 by omega), if_pos (And.intro h2 h2'),
    if_neg (show ¬ (3 - 1 : Nat) = 1 by omega)]
  rw [utf8Run.eq_def]
  simp only [if_pos (show (0:Nat) < 3 - 1 - 1 by omega),
    if_pos (And.intro h3 h3'), if_true]
  have hval : (((b - 0xF0) * 0x40 + (b1 - 0x80)) * 0x40 + (b2 - 0x80)) * 0x40 +
        (b3 - 0x80) =
      (b - 0xF0) * 0x40000 + (b1 - 0x80) * 0x1000 + (b2 - 0x80) * 0x40 +
        (b3 - 0x80) := by omega
  rw [hval]

lemma utf8Run_encodeChar (c : Nat) (hc : c < 0x110000) (rest : List Nat) :
    utf8Run 0 0 (utf8EncodeChar c ++ rest) = c :: utf8Run 0 0 rest := by
  unfold utf8EncodeChar
  by_cases h1 : c < 0x80
  · rw [if_pos h1]
    simpa using utf8Run_ascii rest h1
  · rw [if_neg h1]
    by_cases h2 : c < 0x800
    · rw [if_pos h2]
      simp only [List.cons_append, List.nil_append]
      rw [utf8Run_two rest (by omega) (by omega) (by omega) (by omega)]
      have hval : (0xC0 + c / 0x40 - 0xC0) * 0x40 + (0x80 + c % 0x40 - 0x80) =
          c := by omega
      rw [hval]
    · rw [if_neg h2]
      by_cases h3 : c < 0x10000
      · rw [if_pos h3]
        simp only [List.cons_append, List.nil_append]
        rw [utf8Run_three rest (by omega) (by omega) (by omega) (by omega)
          (by omega) (by omega)]
        have hval : (0xE0 + c / 0x1000 - 0xE0) * 0x1000 +
              (0x80 + (c / 0x40) % 0x40 - 0x80) * 0x40 +
              (0x80 + c % 0x40 - 0x80) = c := by omega
        rw [hval]
      · rw [if_neg h3]
        simp only [List.cons_append, List.nil_append]
        rw [utf8Run_four rest (by omega) (by omega) (by omega) (by omega)
          (by omega) (by omega) (by omega) (by omega)]
        have hval : (0xF0 + c / 0x40000 - 0xF0) * 0x40000 +
              (0x80 + (c / 0x1000) % 0x40 - 0x80) * 0x1000 +
              (0x80 + (c / 0x40) % 0x40 - 0x80) * 0x40 +
              (0x80 + c % 0x40 - 0x80) = c := by omega
        rw [hval]

lemma utf8Decode_encode (cs : List Nat) (h : ∀ c ∈ cs, ValidScalar c) :
    utf8Decode (utf8Encode cs) = cs := by
  unfold utf8Decode
  induction cs with
  | nil => rfl
  | cons c cs ih =>
    rw [utf8Encode_cons,
      utf8Run_encodeChar c (h c (List.mem_cons_self c cs)).1,
      ih (fun x hx => h x (List.mem_cons_of_mem _ hx))]

lemma utf16Run_bmp {u : Nat} (rest : List Nat)
    (h : ¬(0xD800 ≤ u ∧ u < 0xE000)) :
    utf16Run none (u :: rest) = u :: utf16Run none rest := by
  rw [utf16Run.eq_def]
  simp only [if_neg (show ¬(0xD800 ≤ u ∧ u < 0xDC00) by omega),
    if_neg (show ¬(0xDC00 ≤ u ∧ u < 0xE000) by omega)]

lemma utf16Run_pair {u1 u2 : Nat} (rest : List Nat) (ha : 0xD800 ≤ u1)
    (ha' : u1 < 0xDC00) (hb : 0xDC00 ≤ u2) (hb' : u2 < 0xE000) :
    utf16Run none (u1 :: u2 :: rest) =
      (0x10000 + (u1 - 0xD800) * 0x400 + (u2 - 0xDC00)) ::
        utf16Run none rest := by
  rw [utf16Run.eq_def]
  simp only [if_pos (And.intro ha ha')]
  rw [utf16Run.eq_def]
  simp only [if_pos (And.intro hb hb')]

lemma utf16Run_encodeChar (c : Nat) (hc : ValidScalar c) (rest : List Nat) :
    utf16Run none (utf16EncodeChar c ++ rest) = c :: utf16Run none rest := by
  obtain ⟨hlt, hsur⟩ := hc
  unfold utf16EncodeChar
  by_cases h1 : c < 0x10000
  · rw [if_pos h1]
    simp only [List.cons_append, List.nil_append]
    exact utf16Run_bmp rest (by omega)
  · rw [if_neg h1]
    simp only [List.cons_append, List.nil_append]
    rw [utf16Run_pair rest (by omega) (by omega) (by omega) (by omega)]
    have hval : 0x10000 +
          (0xD800 + (c - 0x10000) / 0x400 - 0xD800) * 0x400 +
          (0xDC00 + (c - 0x10000) % 0x400 - 0xDC00) = c := by omega
    rw [hval]

lemma utf16Decode_encode (cs : List Nat) (h : ∀ c ∈ cs, ValidScalar c) :
    utf16Decode (utf16Encode cs) = cs := by
  unfold utf16Decode
  induction cs with
  | nil => rfl
  | cons c cs ih =>
    rw [utf16Encode_cons,
      utf16Run_encodeChar c (h c (List.mem_cons_self c cs)),
      ih (fun x hx => h x (List.mem_cons_of_mem _ hx))]

lemma u8ScanS_nil (skip count : Nat) : u8ScanS skip count [] = none := rfl

lemma u8ScanS_skip {skip : Nat} (count b : Nat) (rest : List Nat)
    (h : 0 < skip) :
    u8ScanS skip count (b :: rest) = u8ScanS (skip - 1) count rest := by
  rw [u8ScanS.eq_def]
  simp only [if_pos h]

lemma u8ScanS_pastEnd (bs : List Nat) : ∀ (skip count : Nat),
    bs.length ≤ skip → u8ScanS skip count bs = none := by
  induction bs with
  | nil => intro skip count _; exact u8ScanS_nil skip count
  | cons b rest ih =>
    intro skip count hlen
    have hpos : 0 < skip := by
      simp only [List.length_cons] at hlen
      omega
    rw [u8ScanS_skip count b rest hpos]
    apply ih
    simp only [List.length_cons] at hlen
    omega

lemma u8ScanS_nul (count : Nat) (rest : List Nat) :
    u8ScanS 0 count (0 :: rest) = some count := by
  rw [u8ScanS.eq_def]
  simp

lemma u8ScanS_ascii {b : Nat} (count : Nat) (rest : List Nat) (h0 : b ≠ 0)
    (h : b < 0x80) :
    u8ScanS 0 count (b :: rest) = u8ScanS 0 (count + 1) rest := by
  rw [u8ScanS.eq_def]
  simp only [if_neg (lt_irrefl 0), if_neg h0, if_pos h]

lemma u8ScanS_two {b : Nat} (count x : Nat) (rest : List Nat)
    (h : b >>> 5 = 0x6) :
    u8ScanS 0 count (b :: x :: rest) = u8ScanS 0 (count + 1) rest := by
  have hb : 0xC0 ≤ b ∧ b < 0xE0 := by
    rw [Nat.shiftRight_eq_div_pow] at h
    omega
  rw [u8ScanS.eq_def]
  simp only [if_neg (lt_irrefl 0), if_neg (show ¬ b = 0 by omega),
    if_neg (show ¬ b < 0x80 by omega), if_pos h]
  rw [u8ScanS.eq_def]
  simp only [if_pos Nat.zero_lt_one]

lemma u8ScanS_three {b : Nat} (count x y : Nat) (rest : List Nat)
    (h : b >>> 4 = 0xE) :
    u8ScanS 0 count (b :: x :: y :: rest) = u8ScanS 0 (count + 1) rest := by
  have hb : 0xE0 ≤ b ∧ b < 0xF0 := by
    rw [Nat.shiftRight_eq_div_pow] at h
    omega
  have h2 : ¬ b >>> 5 = 0x6 := by
    rw [Nat.shiftRight_eq_div_pow]
    omega
  rw [u8ScanS.eq_def]
  simp only [if_neg (lt_irrefl 0), if_neg (show ¬ b = 0 by omega),
    if_neg (show ¬ b < 0x80 by omega), if_neg h2, if_pos h]
  rw [u8ScanS.eq_def]
  simp only [if_pos (show (0:Nat) < 2 by omega)]
  rw [u8ScanS.eq_def]
  simp only [if_pos (show (0:Nat) < 2 - 1 by omega)]

lemma u8ScanS_four {b : Nat} (count x y z : Nat) (rest : List Nat)
    (h : b >>> 3 = 0x1E) :
    u8ScanS 0 count (b :: x :: y :: z :: rest) = u8ScanS 0 (count + 1) rest := by
  have hb : 0xF0 ≤ b ∧ b < 0xF8 := by
    rw [Nat.shiftRight_eq_div_pow] at h
    omega
  have h2 : ¬ b >>> 5 = 0x6 := by
    rw [Nat.shiftRight_eq_div_pow]
    omega
  have h3 : ¬ b >>> 4 = 0xE := by
    rw [Nat.shiftRight_eq_div_pow]
    omega
  rw [u8ScanS.eq_def]
  simp only [if_neg (lt_irrefl 0), if_neg (show ¬ b = 0 by omega),
    if_neg (show ¬ b < 0x80 by omega), if_neg h2, if_neg h3, if_pos h]
  rw [u8ScanS.eq_def]
  simp only [if_pos (show (0:Nat) < 3 by omega)]
  rw [u8ScanS.eq_def]
  simp only [if_pos (show (0:Nat) < 3 - 1 by omega)]
  rw [u8ScanS.eq_def]
  simp only [if_pos (show (0:Nat) < 3 - 1 - 1 by omega)]

lemma u8ScanS_invalid {b : Nat} (count : Nat) (rest : List Nat) (h0 : b ≠ 0)
    (h1 : ¬ b < 0x80) (h2 : ¬ b >>> 5 = 0x6) (h3 : ¬ b >>> 4 = 0xE)
    (h4 : ¬ b >>> 3 = 0x1E) :
    u8ScanS 0 count (b :: rest) = some count := by
  rw [u8ScanS.eq_def]
  simp only [if_neg (lt_irrefl 0), if_neg h0, if_neg h1, if_neg h2,
    if_neg h3, if_neg h4]

lemma u8ScanS_encodeChar (c : Nat) (hc : c < 0x110000) (h0 : c ≠ 0)
    (count : Nat) (rest : List Nat) :
    u8ScanS 0 count (utf8EncodeChar c ++ rest) = u8ScanS 0 (count + 1) rest := by
  unfold utf8EncodeChar
  by_cases h1 : c < 0x80
  · rw [if_pos h1]
    simpa using u8ScanS_ascii count rest h0 h1
  · rw [if_neg h1]
    by_cases h2 : c < 0x800
    · rw [if_pos h2]
      simp only [List.cons_append, List.nil_append]
      exact u8ScanS_two count _ rest
        (by rw [Nat.shiftRight_eq_div_pow]; omega)
    · rw [if_neg h2]
      by_cases h3 : c < 0x10000
      · rw [if_pos h3]
        simp only [List.cons_append, List.nil_append]
        exact u8ScanS_three count _ _ rest
          (by rw [Nat.shiftRight_eq_div_pow]; omega)
      · rw [if_neg h3]
        simp only [List.cons_append, List.nil_append]
        exact u8ScanS_four count _ _ _ rest
          (by rw [Nat.shiftRight_eq_div_pow]; omega)

lemma u8ScanS_encode (cs : List Nat) (h : ∀ c ∈ cs, c < 0x110000 ∧ c ≠ 0) :
    ∀ (count : Nat) (rest : List Nat),
      u8ScanS 0 count (utf8Encode cs ++ rest) =
        u8ScanS 0 (count + cs.length) rest := by
  induction cs with
  | nil => intro count rest; simp [utf8Encode]
  | cons c cs ih =>
    intro count rest
    rw [utf8Encode_cons, List.append_assoc,
      u8ScanS_encodeChar c (h c (List.mem_cons_self c cs)).1
        (h c (List.mem_cons_self c cs)).2,
      ih (fun x hx => h x (List.mem_cons_of_mem _ hx)) (count + 1) rest,
      List.length_cons,
      show count + 1 + cs.length = count + (cs.length + 1) by omega]

lemma u8ScanS_lead_two {b : Nat} (count : Nat) (rest : List Nat)
    (h : b >>> 5 = 0x6) :
    u8ScanS 0 count (b :: rest) = u8ScanS 1 (count + 1) rest := by
  have hb : 0xC0 ≤ b ∧ b < 0xE0 := by
    rw [Nat.shiftRight_eq_div_pow] at h
    omega
  rw [u8ScanS.eq_def]
  simp only [if_neg (lt_irrefl 0), if_neg (show ¬ b = 0 by omega),
    if_neg (show ¬ b < 0x80 by omega), if_pos h]

lemma u8ScanS_lead_three {b : Nat} (count : Nat) (rest : List Nat)
    (h : b >>> 4 = 0xE) :
    u8ScanS 0 count (b :: rest) = u8ScanS 2 (count + 1) rest := by
  have hb : 0xE0 ≤ b ∧ b < 0xF0 := by
    rw [Nat.shiftRight_eq_div_pow] at h
    omega
  have h2 : ¬ b >>> 5 = 0x6 := by
    rw [Nat.shiftRight_eq_div_pow]
    omega
  rw [u8ScanS.eq_def]
  simp only [if_neg (lt_irrefl 0), if_neg (show ¬ b = 0 by omega),
    if_neg (show ¬ b < 0x80 by omega), if_neg h2, if_pos h]

lemma u8ScanS_lead_four {b : Nat} (count : Nat) (rest : List Nat)
    (h : b >>> 3 = 0x1E) :
    u8ScanS 0 count (b :: rest) = u8ScanS 3 (count + 1) rest := by
  have hb : 0xF0 ≤ b ∧ b < 0xF8 := by
    rw [Nat.shiftRight_eq_div_pow] at h
    omega
  have h2 : ¬ b >>> 5 = 0x6 := by
    rw [Nat.shiftRight_eq_div_pow]
    omega
  have h3 : ¬ b >>> 4 = 0xE := by
    rw [Nat.shiftRight_eq_div_pow]
    omega
  rw [u8ScanS.eq_def]
  simp only [if_neg (lt_irrefl 0), if_neg (show ¬ b = 0 by omega),
    if_neg (show ¬ b < 0x80 by omega), if_neg h2, if_neg h3, if_pos h]

/-- C1: for every NUL-terminated byte sequence that is the well-formed
UTF-8 encoding of a list of scalar values (none of which is NUL),
`U8StrLength` returns exactly the number of encoded code points. -/
theorem U8StrLength_counts_codepoints (cs : List Nat)
    (h : ∀ c ∈ cs, ValidScalar c ∧ c ≠ 0) :
    U8StrLength (some (utf8Encode cs)) = some cs.length := by
  show u8ScanS 0 0 (utf8Encode cs ++ [0]) = some cs.length
  rw [u8ScanS_encode cs (fun c hc => ⟨(h c hc).1.1, (h c hc).2⟩) 0 [0],
    u8ScanS_nul]
  norm_num

/-- Witness for C1: the 6-byte UTF-8 encoding of "héllo" has 5 code
points. -/
theorem U8StrLength_counts_codepoints_witness :
    (∀ c ∈ [0x68, 0xE9, 0x6C, 0x6C, 0x6F], ValidScalar c ∧ c ≠ 0) ∧
    U8StrLength (some (utf8Encode [0x68, 0xE9, 0x6C, 0x6C, 0x6F])) = some 5 :=
  ⟨by decide,
   U8StrLength_counts_codepoints [0x68, 0xE9, 0x6C, 0x6C, 0x6F] (by decide)⟩

/-- C2: the scan loop of `U8StrLength` classifies a lead byte by its
high-bit pattern, advances by the declared width without validating the
continuation bytes, counts one code point per sequence, stops with the
count accumulated so far at the first byte matching no pattern, and a
string whose first byte is `0xFF` yields 0. -/
theorem U8StrLength_classifies_lead_bytes :
    (∀ b count rest, b ≠ 0 → b < 0x80 →
      u8ScanS 0 count (b :: rest) = u8ScanS 0 (count + 1) rest) ∧
    (∀ b count x rest, b >>> 5 = 0x6 →
      u8ScanS 0 count (b :: x :: rest) = u8ScanS 0 (count + 1) rest) ∧
    (∀ b count x y rest, b >>> 4 = 0xE →
      u8ScanS 0 count (b :: x :: y :: rest) = u8ScanS 0 (count + 1) rest) ∧
    (∀ b count x y z rest, b >>> 3 = 0x1E →
      u8ScanS 0 count (b :: x :: y :: z :: rest) = u8ScanS 0 (count + 1) rest) ∧
    (∀ b count rest, b ≠ 0 → ¬ b < 0x80 → ¬ b >>> 5 = 0x6 →
      ¬ b >>> 4 = 0xE → ¬ b >>> 3 = 0x1E →
      u8ScanS 0 count (b :: rest) = some count) ∧
    U8StrLength (some [0xFF, 0xFE, 0x61, 0x62, 0x63]) = some 0 :=
  ⟨fun _ count rest h0 h => u8ScanS_ascii count rest h0 h,
   fun _ count x rest h => u8ScanS_two count x rest h,
   fun _ count x y rest h => u8ScanS_three count x y rest h,
   fun _ count x y z rest h => u8ScanS_four count x y z rest h,
   fun _ count rest h0 h1 h2 h3 h4 =>
     u8ScanS_invalid count rest h0 h1 h2 h3 h4,
   by decide⟩

/-- Witness for C2 at concrete bytes (the continuation positions hold
deliberately malformed bytes, showing they are not validated). -/
theorem U8StrLength_classifies_lead_bytes_witness :
    (u8ScanS 0 0 [0x41, 0] = u8ScanS 0 1 [0]) ∧
    (u8ScanS 0 0 [0xC3, 0x20, 0] = u8ScanS 0 1 [0]) ∧
    (u8ScanS 0 0 [0xE4, 0x20, 0x21, 0] = u8ScanS 0 1 [0]) ∧
    (u8ScanS 0 0 [0xF0, 0x20, 0x21, 0x22, 0] = u8ScanS 0 1 [0]) ∧
    (u8ScanS 0 7 [0xFF, 0x61] = some 7) :=
  ⟨U8StrLength_classifies_lead_bytes.1 0x41 0 [0] (by decide) (by decide),
   U8StrLength_classifies_lead_bytes.2.1 0xC3 0 0x20 [0] (by decide),
   U8StrLength_classifies_lead_bytes.2.2.1 0xE4 0 0x20 0x21 [0] (by decide),
   U8StrLength_classifies_lead_bytes.2.2.2.1 0xF0 0 0x20 0x21 0x22 [0]
     (by decide),
   U8StrLength_classifies_lead_bytes.2.2.2.2.1 0xFF 7 [0x61] (by decide)
     (by decide) (by decide) (by decide) (by decide)⟩

/-- C10: when the string ends in a truncated multi-byte sequence (a lead
byte declaring width `w` with fewer than `w - 1` bytes before the
terminator), the scan's pointer advance skips past the terminator and the
next dereference reads outside the allocated buffer: the embedding's
error branch `none` is reached. -/
theorem U8StrLength_truncated_tail_reads_past_end (cs : List Nat)
    (lead : Nat) (t : List Nat) (h : ∀ c ∈ cs, ValidScalar c ∧ c ≠ 0)
    (hlead : (lead >>> 5 = 0x6 ∧ t.length < 1) ∨
             (lead >>> 4 = 0xE ∧ t.length < 2) ∨
             (lead >>> 3 = 0x1E ∧ t.length < 3)) :
    U8StrLength (some (utf8Encode cs ++ (lead :: t))) = none := by
  show u8ScanS 0 0 ((utf8Encode cs ++ lead :: t) ++ [0]) = none
  rw [List.append_assoc,
    u8ScanS_encode cs (fun c hc => ⟨(h c hc).1.1, (h c hc).2⟩) 0 _]
  simp only [List.cons_append]
  rcases hlead with ⟨hw, ht⟩ | ⟨hw, ht⟩ | ⟨hw, ht⟩
  · rw [u8ScanS_lead_two _ _ hw]
    apply u8ScanS_pastEnd
    simp only [List.length_append, List.length_cons, List.length_nil]
    omega
  · rw [u8ScanS_lead_three _ _ hw]
    apply u8ScanS_pastEnd
    simp only [List.length_append, List.length_cons, List.length_nil]
    omega
  · rw [u8ScanS_lead_four _ _ hw]
    apply u8ScanS_pastEnd
    simp only [List.length_append, List.length_cons, List.length_nil]
    omega

/-- Witness for C10: "h" followed by the lone lead byte `0xC3`. -/
theorem U8StrLength_truncated_tail_reads_past_end_witness :
    (∀ c ∈ [0x68], ValidScalar c ∧ c ≠ 0) ∧
    U8StrLength (some (utf8Encode [0x68] ++ [0xC3])) = none :=
  ⟨by decide,
   U8StrLength_truncated_tail_reads_past_end [0x68] 0xC3 [] (by decide)
     (Or.inl (by decide))⟩

lemma CStr2WString_some (os : OS) (content : List Nat) (l : Int) (cp : Nat) :
    CStr2WString os (some content) l cp =
      if (os.mb cp (cstrSrc content l)).length = 0 then []
      else os.mb cp (cstrSrc content l) := rfl

lemma cstrSrc_length (content : List Nat) :
    cstrSrc content (Int.ofNat content.length) = content := by
  unfold cstrSrc
  rw [if_neg (show ¬(Int.ofNat content.length = -1) by
      rw [Int.ofNat_eq_natCast]; omega),
    show (Int.ofNat content.length).toNat = content.length from rfl,
    List.take_length]

lemma String2WString_eval (os : OS) (s : List Nat) (cp : Nat) (hs : s ≠ []) :
    String2WString os s cp =
      if (os.mb cp s).length = 0 then [] else os.mb cp s := by
  rw [String2WString, if_neg hs, CStr2WString_some, cstrSrc_length]

lemma WString2String_eval (os : OS) (w : List Nat) (cp : Nat) (hw : w ≠ []) :
    WString2String os w cp =
      if (os.wc cp w).length = 0 then [] else os.wc cp w := by
  rw [WString2String, if_neg hw]

/-- C3: every failure mode degrades to an empty result: a null pointer or
empty input yields an empty string, an OS conversion reporting zero
converted units yields an empty string, and `U8StrLength` yields 0 on a
null pointer or empty string.  No error value exists anywhere (the
embedded functions are total and return plain strings). -/
theorem conversions_degrade_to_empty (os : OS) :
    (∀ l cp, CStr2WString os none l cp = []) ∧
    (∀ cp, String2WString os [] cp = []) ∧
    (∀ cp, WString2String os [] cp = []) ∧
    (∀ l, U8CStr2WString os none l = []) ∧
    (∀ c, U8CStr2WString os (some c) 0 = []) ∧
    (U8String2WString os [] = []) ∧
    (WString2U8String os [] = []) ∧
    (∀ l, U8CStr2String os none l = []) ∧
    (∀ c, U8CStr2String os (some c) 0 = []) ∧
    (U8String2String os [] = []) ∧
    (String2U8String os [] = []) ∧
    (∀ c l cp, os.mb cp (cstrSrc c l) = [] →
      CStr2WString os (some c) l cp = []) ∧
    (∀ w cp, os.wc cp w = [] → WString2String os w cp = []) ∧
    (U8StrLength none = some 0) ∧
    (U8StrLengthStr [] = some 0) := by
  refine ⟨fun l cp => rfl, fun cp => by simp [String2WString],
    fun cp => by simp [WString2String], fun l => rfl,
    fun c => by simp [U8CStr2WString], by simp [U8String2WString],
    by simp [WString2U8String], fun l => rfl,
    fun c => by simp [U8CStr2String], by simp [U8String2String],
    by simp [String2U8String], ?_, ?_, rfl, by simp [U8StrLengthStr]⟩
  · intro c l cp hmb
    rw [CStr2WString_some, hmb]
    simp
  · intro w cp hwc
    by_cases hw : w = []
    · simp [WString2String, hw]
    · rw [WString2String_eval os w cp hw, hwc]
      simp

/-- Witness for C3 at a concrete OS model and concrete inputs. -/
theorem conversions_degrade_to_empty_witness :
    (CStr2WString osId none 7 3 = []) ∧
    (String2WString osId [] 3 = []) ∧
    (WString2String osId [] 3 = []) ∧
    (U8CStr2WString osId none 7 = []) ∧
    (U8CStr2WString osId (some [0x61]) 0 = []) ∧
    (U8String2WString osId [] = []) ∧
    (WString2U8String osId [] = []) ∧
    (U8CStr2String osId none 7 = []) ∧
    (U8CStr2String osId (some [0x61]) 0 = []) ∧
    (U8String2String osId [] = []) ∧
    (String2U8String osId [] = []) ∧
    (CStr2WString osId (some [0x61]) 0 3 = []) ∧
    (WString2String osId [] 5 = []) ∧
    (U8StrLength none = some 0) ∧
    (U8StrLengthStr [] = some 0) := by
  have h := conversions_degrade_to_empty osId
  exact ⟨h.1 7 3, h.2.1 3, h.2.2.1 3, h.2.2.2.1 7, h.2.2.2.2.1 [0x61],
    h.2.2.2.2.2.1, h.2.2.2.2.2.2.1, h.2.2.2.2.2.2.2.1 7,
    h.2.2.2.2.2.2.2.2.1 [0x61], h.2.2.2.2.2.2.2.2.2.1,
    h.2.2.2.2.2.2.2.2.2.2.1,
    h.2.2.2.2.2.2.2.2.2.2.2.1 [0x61] 0 3 (by decide),
    h.2.2.2.2.2.2.2.2.2.2.2.2.1 [] 5 (by decide),
    h.2.2.2.2.2.2.2.2.2.2.2.2.2.1,
    h.2.2.2.2.2.2.2.2.2.2.2.2.2.2⟩

/-- C4: the two-stage conversions are exactly the composition of the two
primitives through UTF-16, for every input: UTF-8 → system is the UTF-8 →
wide primitive followed by the wide → system-code-page primitive, and
system → UTF-8 is system → wide followed by wide → UTF-8. -/
theorem two_stage_is_composition (os : OS) :
    (∀ str l, U8CStr2String os str l =
      WString2String os (U8CStr2WString os str l) CP_ACP) ∧
    (∀ s, U8String2String os s =
      WString2String os (U8String2WString os s) CP_ACP) ∧
    (∀ s, String2U8String os s =
      WString2U8String os (String2WString os s CP_ACP)) := by
  refine ⟨?_, ?_, ?_⟩
  · intro str l
    match str with
    | none => simp [U8CStr2String, U8CStr2WString, WString2String]
    | some c =>
      by_cases hl : l = 0
      · simp [U8CStr2String, U8CStr2WString, hl, WString2String]
      · simp [U8CStr2String, U8CStr2WString, hl]
  · intro s
    by_cases hs : s = []
    · simp [U8String2String, U8String2WString, hs, WString2String]
    · have hlen : (Int.ofNat s.length) ≠ 0 := by
        have hpos : 0 < s.length := List.length_pos.mpr hs
        rw [Int.ofNat_eq_natCast]
        omega
      simp [U8String2String, hs, U8CStr2String, hlen, U8String2WString,
        U8CStr2WString, String2WString]
  · intro s
    by_cases hs : s = [] <;>
      simp [String2U8String, hs, WString2U8String, String2WString]

/-- C7: argument decoding preserves the native argument list: one entry
per native argument in identical order (on Windows each is the UTF-8
transcoding of the wide argument), the length matches the native count,
the Windows re-parse failure yields the empty list, and the non-Windows
path wraps `argc`/`argv` as-is with no transcoding. -/
theorem args_preserve_order_and_count (os : OS) :
    (∀ args, (GetUTF8CommandLineArgs os (some args)).1 =
      args.map (fun a => WideToUTF8 os (some a))) ∧
    (∀ args, ((GetUTF8CommandLineArgs os (some args)).1).length =
      args.length) ∧
    ((GetUTF8CommandLineArgs os none).1 = []) ∧
    (∀ argv, GetUTF8CommandLineArgsPosix argv.length argv = argv) :=
  ⟨fun args => rfl, fun args => by simp [GetUTF8CommandLineArgs], rfl,
   fun argv => List.take_length argv⟩

/-- C8: when the command-line re-parse returns no array, exactly one
diagnostic line goes to the error stream and the result is the empty
list; in every other case no diagnostic is emitted.  The embedding is a
total function, so no exception or termination is modelled or needed. -/
theorem args_failure_one_diagnostic (os : OS) :
    (GetUTF8CommandLineArgs os none = ([], [utf8ArgsErrMsg])) ∧
    ((GetUTF8CommandLineArgs os none).2.length = 1) ∧
    (∀ args, (GetUTF8CommandLineArgs os (some args)).2 = []) :=
  ⟨rfl, rfl, fun _ => rfl⟩

/-- C9: for a non-empty NUL-terminated string, the `-1` length sentinel
makes `CStr2WString` return the conversion of the `strlen` bytes plus
one trailing null wide unit (the decoded terminator). -/
theorem cstr2wstring_neg_one_appends_null (os : OS) (cp : Nat)
    (content : List Nat) (_hne : content ≠ []) (h0 : 0 ∉ content)
    (hnt : MbRespectsTerminator os cp) :
    CStr2WString os (some content) (-1) cp =
      CStr2WString os (some content) (Int.ofNat content.length) cp ++ [0] := by
  have hsrc1 : cstrSrc content (-1) = content ++ [0] := by
    unfold cstrSrc
    simp
  rw [CStr2WString_some, CStr2WString_some, hsrc1, cstrSrc_length,
    hnt content h0]
  by_cases hm : os.mb cp content = []
  · simp [hm]
  · have hlen : (os.mb cp content).length ≠ 0 := by
      simpa [List.length_eq_zero] using hm
    simp [hm, hlen]

/-- Witness for C9 at a concrete OS model. -/
theorem cstr2wstring_neg_one_appends_null_witness :
    (([0x61] : List Nat) ≠ [] ∧ (0 : Nat) ∉ ([0x61] : List Nat)) ∧
    CStr2WString osId (some [0x61]) (-1) 3 =
      CStr2WString osId (some [0x61]) (Int.ofNat 1) 3 ++ [0] :=
  ⟨by decide,
   cstr2wstring_neg_one_appends_null osId 3 [0x61] (by decide) (by decide)
     (fun s _ => rfl)⟩

/-- C5: round-trip through UTF-16: converting a valid UTF-8 byte
sequence to a wide string with `U8String2WString` and back with
`WString2U8String` yields the sequence unchanged, for any OS whose
`CP_UTF8` conversions are faithful. -/
theorem utf8_wide_roundtrip (os : OS) (hos : os.utf8Faithful)
    (cs : List Nat) (hv : ∀ c ∈ cs, ValidScalar c) :
    WString2U8String os (U8String2WString os (utf8Encode cs)) =
      utf8Encode cs := by
  obtain ⟨hmb, hwc⟩ := hos
  cases cs with
  | nil => simp [utf8Encode, U8String2WString, WString2U8String]
  | cons c cs' =>
    have hs : utf8Encode (c :: cs') ≠ [] := utf8Encode_ne_nil c cs'
    have hw : utf16Encode (c :: cs') ≠ [] := utf16Encode_ne_nil c cs'
    have hdec : utf8Decode (utf8Encode (c :: cs')) = c :: cs' :=
      utf8Decode_encode _ hv
    have h1 : U8String2WString os (utf8Encode (c :: cs')) =
        utf16Encode (c :: cs') := by
      rw [U8String2WString, if_neg hs, String2WString_eval os _ _ hs,
        hmb, hdec, if_neg (by simpa [List.length_eq_zero] using hw)]
    rw [h1, WString2U8String, if_neg hw, WString2String_eval os _ _ hw,
      hwc, utf16Decode_encode _ hv,
      if_neg (by simpa [List.length_eq_zero] using hs)]

/-- Witness for C5: "你😀" through the reference OS model. -/
theorem utf8_wide_roundtrip_witness :
    osStd.utf8Faithful ∧ (∀ c ∈ [0x4F60, 0x1F600], ValidScalar c) ∧
    WString2U8String osStd
        (U8String2WString osStd (utf8Encode [0x4F60, 0x1F600])) =
      utf8Encode [0x4F60, 0x1F600] :=
  ⟨⟨fun _ => rfl, fun _ => rfl⟩, by decide,
   utf8_wide_roundtrip osStd ⟨fun _ => rfl, fun _ => rfl⟩ [0x4F60, 0x1F600]
     (by decide)⟩

/-- C6: round-trip through the system code page: for a valid UTF-8
string whose wide form the system code page represents without loss
(the `CP_ACP` conversion is non-empty and inverts), converting to the
system code page and back yields the string unchanged. -/
theorem system_codepage_roundtrip (os : OS) (hos : os.utf8Faithful)
    (cs : List Nat) (hv : ∀ c ∈ cs, ValidScalar c)
    (hloss : os.wc CP_ACP (utf16Encode cs) ≠ [] ∧
      os.mb CP_ACP (os.wc CP_ACP (utf16Encode cs)) = utf16Encode cs) :
    String2U8String os (U8String2String os (utf8Encode cs)) =
      utf8Encode cs := by
  obtain ⟨hmb, hwc⟩ := hos
  obtain ⟨ha, hrt⟩ := hloss
  cases cs with
  | nil => simp [utf8Encode, U8String2String, String2U8String]
  | cons c cs' =>
    have hs : utf8Encode (c :: cs') ≠ [] := utf8Encode_ne_nil c cs'
    have hw : utf16Encode (c :: cs') ≠ [] := utf16Encode_ne_nil c cs'
    have hdec : utf8Decode (utf8Encode (c :: cs')) = c :: cs' :=
      utf8Decode_encode _ hv
    have hlen : (Int.ofNat (utf8Encode (c :: cs')).length) ≠ 0 := by
      have hpos : 0 < (utf8Encode (c :: cs')).length := List.length_pos.mpr hs
      rw [Int.ofNat_eq_natCast]
      omega
    have h1 : U8String2String os (utf8Encode (c :: cs')) =
        os.wc CP_ACP (utf16Encode (c :: cs')) := by
      rw [U8String2String, if_neg hs, U8CStr2String, if_neg hlen,
        U8CStr2WString, if_neg hlen, CStr2WString_some, cstrSrc_length,
        hmb, hdec, if_neg (by simpa [List.length_eq_zero] using hw),
        WString2String_eval os _ _ hw,
        if_neg (by simpa [List.length_eq_zero] using ha)]
    rw [h1, String2U8String, if_neg ha,
      String2WString_eval os _ _ ha, hrt,
      if_neg (by simpa [List.length_eq_zero] using hw),
      WString2U8String, if_neg hw, WString2String_eval os _ _ hw, hwc,
      utf16Decode_encode _ hv,
      if_neg (by simpa [List.length_eq_zero] using hs)]

/-- Witness for C6: "a" through the reference OS model, whose `CP_ACP`
conversion is lossless on it. -/
theorem system_codepage_roundtrip_witness :
    osStd.utf8Faithful ∧ (∀ c ∈ [0x61], ValidScalar c) ∧
    (osStd.wc CP_ACP (utf16Encode [0x61]) ≠ [] ∧
      osStd.mb CP_ACP (osStd.wc CP_ACP (utf16Encode [0x61])) =
        utf16Encode [0x61]) ∧
    String2U8String osStd (U8String2String osStd (utf8Encode [0x61])) =
      utf8Encode [0x61] :=
  ⟨⟨fun _ => rfl, fun _ => rfl⟩, by decide, ⟨by decide, by decide⟩,
   system_codepage_roundtrip osStd ⟨fun _ => rfl, fun _ => rfl⟩ [0x61]
     (by decide) ⟨by decide, by decide⟩⟩
